import Mathlib

/-!
Verification of the row-selector resolution engine (`src/c/expr/i_node.cc`)
and the column-implementation contract (`src/src/core/column/column_impl.h`)
of the datatable core, against its natural-language specification.

The C++ code is shallowly embedded: each selector node becomes a pure Lean
function over explicit arguments; `throw` becomes the `Except.error`
constructor of a structured error type; machine integers (`int64_t`,
`size_t`, `int32_t`) are modelled as `Int`/`Nat`, with explicit `% 2 ^ 64`
(resp. `% 2 ^ 32`) wherever the C++ conversion can actually wrap.
C++ integer division truncates towards zero, which is `Int.tdiv`.
-/

namespace Dt

/-- Kind of a raised error: the source throws either `TypeError` or
`ValueError` objects; we record which one each throw site uses. -/
inductive ErrKind where
  | typeError
  | valueError
deriving DecidableEq

/-- Structured errors. Each constructor corresponds to one `throw` site in
`i_node.cc`, and carries the values interpolated into its message. -/
inductive Err where
  /-- onerow_in::post_init_check: "Row `irow` is invalid for a frame with nrows rows". -/
  | rowInvalid (irow : Int) (nrows : Nat)
  /-- slice_in::execute (range path): "range(...) cannot be applied to a Frame with nrows rows". -/
  | rangeInapplicable (start stop step : Int) (nrows : Nat)
  /-- frame_in ctor: "Only a single-column Frame may be used as `i` selector". -/
  | frameNcols (ncols : Nat)
  /-- frame_in ctor: "A Frame which is used as an `i` selector should be either boolean or integer". -/
  | frameStype
  /-- frame_in::post_init_check: boolean column length mismatch. -/
  | boolColumnLength (colrows nrows : Nat)
  /-- frame_in::post_init_check: "contains invalid negative indices: min". -/
  | negIndexInColumn (minval : Int)
  /-- frame_in::post_init_check: "contains index max which is not valid ...". -/
  | indexTooLarge (maxval : Int) (nrows : Nat)
  /-- _from_nparray: "Only a single-dimensional numpy array is allowed". -/
  | arrayShape (shape : List Nat)
  /-- _from_nparray: "Either a boolean or an integer numpy array expected". -/
  | arrayDtype (dtype : List Char)
  /-- multislice_in ctor: "Invalid wrap-around range(start, stop, step)". -/
  | wrapAroundRange (start stop step : Int)
  /-- multislice_in ctor: "when step is 0, both start and stop must be present, and stop must be non-negative". -/
  | zeroStepSlice
  /-- multislice_in ctor: "Only integer-valued slices are allowed" / "Invalid item ... in the `i` selector list". -/
  | invalidItem
  /-- multislice_in::post_init_check: "`i` selector is valid for a Frame with at least min_nrows rows". -/
  | needRows (min_nrows : Nat)
  /-- expr_in::execute: "Filter expression must be of `bool8` type". -/
  | filterNotBool
  /-- _make: "Boolean value cannot be used as an `i` expression". -/
  | boolSelector
  /-- _make: "src is not integer-valued" (a non-numeric slice). -/
  | sliceNotNumeric
deriving DecidableEq

/-- Which exception class each throw site of the source uses. -/
def Err.kind : Err → ErrKind
  | .frameStype | .arrayDtype _ | .invalidItem | .filterNotBool | .boolSelector
  | .sliceNotNumeric => .typeError
  | _ => .valueError

/-- RowIndex: canonical immutable row selection. `arith` is the
`RowIndex(start, count, step)` constructor; `array` is the
`RowIndex(arr32_t, sorted)` constructor, where the entry `-1` is the
distinguished "missing" sentinel producing a null row. -/
inductive RowIndex where
  | all
  | arith (start count : Nat) (step : Int)
  | array (indices : List Int)
deriving DecidableEq

/-- True iff the computation raised. -/
def isErr {α : Type} : Except Err α → Bool
  | .error _ => true
  | .ok _ => false

/-- Boolean equality test on `Except`, used to derive decidability of
equations between embedded computations. -/
def exceptBeq {ε α : Type} [DecidableEq ε] [DecidableEq α] :
    Except ε α → Except ε α → Bool
  | .error a, .error b => decide (a = b)
  | .ok a, .ok b => decide (a = b)
  | _, _ => false

instance {ε α : Type} [DecidableEq ε] [DecidableEq α] : DecidableEq (Except ε α) :=
  fun x y => decidable_of_iff (exceptBeq x y = true) (by cases x <;> cases y <;> simp [exceptBeq])

/-! ### onerow_in (a single signed row offset) -/

/-- onerow_in::post_init_check: raise when the stored offset is outside
`[-nrows, nrows)`, otherwise normalize a negative offset by adding `nrows`. -/
def onerow_post_init_check (irow : Int) (nrows : Nat) : Except Err Int :=
  let inrows : Int := nrows
  if irow < -inrows || irow ≥ inrows then .error (.rowInvalid irow nrows)
  else .ok (if irow < 0 then irow + inrows else irow)

/-- onerow_in::execute: yields `RowIndex(start, 1, 1)` from the (already
normalized, hence non-negative) offset; `static_cast<size_t>` of that
non-negative value is `Int.toNat`. -/
def onerow_execute (irow : Int) : RowIndex :=
  .arith irow.toNat 1 1

/-- Resolution of a one-row selector: `post_init_check` then `execute`. -/
def onerow_resolve (irow : Int) (nrows : Nat) : Except Err RowIndex :=
  match onerow_post_init_check irow nrows with
  | .error e => .error e
  | .ok i2 => .ok (onerow_execute i2)

/-! ### frame_in (single-column boolean or integer frame selector) -/

/-- The single column of a frame used as an `i` selector: either a boolean
mask column or an integer index column (entry values as `int64_t`). -/
inductive SelCol where
  | bools (vals : List Bool)
  | ints (vals : List Int)
deriving DecidableEq

/-- Modelled from the spec: `Column::min_int64` lives in the statistics
subsystem, outside the given sources; the spec only speaks of the selector
column's "minimum value", which for a non-empty column is the least entry.
We model it as the fold of `min` over the entries (0 for an empty column;
the claims about it are settled for non-empty columns only). -/
def min_int64 : List Int → Int
  | [] => 0
  | v :: rest => rest.foldl min v

/-- Modelled from the spec: `Column::max_int64`, the column's
"maximum value"; see `min_int64`. -/
def max_int64 : List Int → Int
  | [] => 0
  | v :: rest => rest.foldl max v

/-- frame_in::post_init_check: a boolean column must have exactly `nrows`
rows; an integer column must have minimum ≥ −1 and maximum < `nrows`. -/
def frame_post_init_check (col : SelCol) (nrows : Nat) : Except Err Unit :=
  match col with
  | .bools vs =>
      if vs.length ≠ nrows then .error (.boolColumnLength vs.length nrows)
      else .ok ()
  | .ints vs =>
      if min_int64 vs < -1 then .error (.negIndexInColumn (min_int64 vs))
      else if (nrows : Int) ≤ max_int64 vs then .error (.indexTooLarge (max_int64 vs) nrows)
      else .ok ()

/-- Positions (ascending) where a boolean mask is true, as signed indices. -/
def bools_to_rowindex (vs : List Bool) : List Int :=
  ((List.range vs.length).filter (fun i => vs.getD i false)).map (fun i : Nat => (i : Int))

/-- Modelled from the spec: the `RowIndex(Column*)` conversion invoked by
`frame_in::execute` is outside the given sources; per the spec it is
"boolean ⇒ positions where true; integer ⇒ the values themselves, with −1
meaning a null row". -/
def rowindex_from_column (col : SelCol) : RowIndex :=
  match col with
  | .bools vs => .array (bools_to_rowindex vs)
  | .ints vs => .array vs

/-- Resolution of a frame selector: `post_init_check` then `execute`. -/
def frame_resolve (col : SelCol) (nrows : Nat) : Except Err RowIndex :=
  match frame_post_init_check col nrows with
  | .error e => .error e
  | .ok _ => .ok (rowindex_from_column col)

/-! ### Helper lemmas about fold-based min/max -/

theorem foldl_min_le_init (l : List Int) (a : Int) : l.foldl min a ≤ a := by
  induction l generalizing a with
  | nil => simp
  | cons x xs ih =>
      simp only [List.foldl_cons]
      exact le_trans (ih (min a x)) (min_le_left a x)

theorem foldl_min_le_mem (l : List Int) (a : Int) {x : Int} (hx : x ∈ l) :
    l.foldl min a ≤ x := by
  induction l generalizing a with
  | nil => cases hx
  | cons y ys ih =>
      simp only [List.foldl_cons]
      rcases List.mem_cons.mp hx with h | h
      · subst h
        exact le_trans (foldl_min_le_init ys (min a x)) (min_le_right a x)
      · exact ih (min a y) h

theorem foldl_min_mem (l : List Int) (a : Int) :
    l.foldl min a = a ∨ l.foldl min a ∈ l := by
  induction l generalizing a with
  | nil => left; rfl
  | cons x xs ih =>
      simp only [List.foldl_cons]
      rcases ih (min a x) with h | h
      · rcases min_cases a x with ⟨h2, _⟩ | ⟨h2, _⟩
        · left; rw [h, h2]
        · right; rw [h, h2]; exact List.mem_cons_self x xs
      · right; exact List.mem_cons_of_mem x h

theorem le_foldl_max_init (l : List Int) (a : Int) : a ≤ l.foldl max a := by
  induction l generalizing a with
  | nil => simp
  | cons x xs ih =>
      simp only [List.foldl_cons]
      exact le_trans (le_max_left a x) (ih (max a x))

theorem mem_le_foldl_max (l : List Int) (a : Int) {x : Int} (hx : x ∈ l) :
    x ≤ l.foldl max a := by
  induction l generalizing a with
  | nil => cases hx
  | cons y ys ih =>
      simp only [List.foldl_cons]
      rcases List.mem_cons.mp hx with h | h
      · subst h
        exact le_trans (le_max_right a x) (le_foldl_max_init ys (max a x))
      · exact ih (max a y) h

theorem foldl_max_mem (l : List Int) (a : Int) :
    l.foldl max a = a ∨ l.foldl max a ∈ l := by
  induction l generalizing a with
  | nil => left; rfl
  | cons x xs ih =>
      simp only [List.foldl_cons]
      rcases ih (max a x) with h | h
      · rcases max_cases a x with ⟨h2, _⟩ | ⟨h2, _⟩
        · left; rw [h, h2]
        · right; rw [h, h2]; exact List.mem_cons_self x xs
      · right; exact List.mem_cons_of_mem x h

theorem min_int64_le {vs : List Int} {x : Int} (hx : x ∈ vs) : min_int64 vs ≤ x := by
  cases vs with
  | nil => cases hx
  | cons v rest =>
      rcases List.mem_cons.mp hx with h | h
      · subst h; exact foldl_min_le_init rest x
      · exact foldl_min_le_mem rest v h

theorem min_int64_mem {vs : List Int} (h : vs ≠ []) : min_int64 vs ∈ vs := by
  cases vs with
  | nil => exact absurd rfl h
  | cons v rest =>
      rcases foldl_min_mem rest v with h2 | h2
      · rw [min_int64, h2]; exact List.mem_cons_self v rest
      · exact List.mem_cons_of_mem v h2

theorem le_max_int64 {vs : List Int} {x : Int} (hx : x ∈ vs) : x ≤ max_int64 vs := by
  cases vs with
  | nil => cases hx
  | cons v rest =>
      rcases List.mem_cons.mp hx with h | h
      · subst h; exact le_foldl_max_init rest x
      · exact mem_le_foldl_max rest v h

theorem max_int64_mem {vs : List Int} (h : vs ≠ []) : max_int64 vs ∈ vs := by
  cases vs with
  | nil => exact absurd rfl h
  | cons v rest =>
      rcases foldl_max_mem rest v with h2 | h2
      · rw [max_int64, h2]; exact List.mem_cons_self v rest
      · exact List.mem_cons_of_mem v h2

/-! ### Claim theorems for the one-row and frame selectors -/

/-- C6: for a frame of row count `N` and an integer one-row selector with
offset `k`, resolution succeeds exactly when `-N ≤ k < N`, in which case it
yields the single-element ARITHMETIC RowIndex with start `k mod N`
(non-negative), count 1 and step 1; outside that bound it raises a range
error naming the offset and the row count. -/
theorem claim_C6_onerow (k : Int) (N : Nat) :
    (-(N : Int) ≤ k ∧ k < N →
        onerow_resolve k N = .ok (.arith (k % (N : Int)).toNat 1 1)) ∧
    (k < -(N : Int) ∨ (N : Int) ≤ k →
        onerow_resolve k N = .error (.rowInvalid k N) ∧
        Err.kind (.rowInvalid k N) = .valueError) := by
  constructor
  · rintro ⟨h1, h2⟩
    have hcheck : ¬(k < -(N : Int) || k ≥ (N : Int)) = true := by
      simp only [Bool.or_eq_true, decide_eq_true_eq]
      push_neg
      exact ⟨h1, h2⟩
    unfold onerow_resolve onerow_post_init_check
    simp only [hcheck, if_false, Bool.false_eq_true]
    by_cases hk : k < 0
    · have hmod : k % (N : Int) = k + N := by
        have e1 := Int.add_mul_emod_self_left k (N : Int) 1
        rw [mul_one] at e1
        rw [← e1]
        exact Int.emod_eq_of_lt (by omega) (by omega)
      simp [onerow_execute, hk, hmod]
    · have hmod : k % (N : Int) = k := Int.emod_eq_of_lt (by omega) h2
      simp [onerow_execute, hk, hmod]
  · intro h
    have hcheck : (k < -(N : Int) || k ≥ (N : Int)) = true := by
      simp only [Bool.or_eq_true, decide_eq_true_eq]
      rcases h with h | h
      · exact Or.inl h
      · exact Or.inr h
    unfold onerow_resolve onerow_post_init_check
    simp [hcheck, Err.kind]

/-- Witness for C6 at concrete inputs: offsets 3 and −2 against 5 rows
resolve to the expected single-row indices, and offset −7 raises. -/
theorem claim_C6_onerow_witness :
    onerow_resolve 3 5 = .ok (.arith 3 1 1) ∧
    onerow_resolve (-2) 5 = .ok (.arith 3 1 1) ∧
    onerow_resolve (-7) 5 = .error (.rowInvalid (-7) 5) := by
  refine ⟨?_, ?_, ?_⟩
  · have h := (claim_C6_onerow 3 5).1 (by decide)
    simpa using h
  · have h := (claim_C6_onerow (-2) 5).1 (by decide)
    simpa using h
  · exact ((claim_C6_onerow (-7) 5).2 (by decide)).1

/-- C4: resolving a single-column boolean frame selector against a frame of
row count `N` raises exactly when the column's row count differs from `N`;
on equality it yields the ARRAY RowIndex of the positions where the mask is
true: a strictly ascending list of non-negative indices containing exactly
the true positions of the mask. -/
theorem claim_C4_bool_frame (vs : List Bool) (N : Nat) :
    (vs.length ≠ N →
        frame_resolve (.bools vs) N = .error (.boolColumnLength vs.length N)) ∧
    (vs.length = N →
        frame_resolve (.bools vs) N = .ok (.array (bools_to_rowindex vs)) ∧
        List.Pairwise (· < ·) (bools_to_rowindex vs) ∧
        (∀ x ∈ bools_to_rowindex vs, 0 ≤ x) ∧
        (∀ i : Nat, ((i : Int) ∈ bools_to_rowindex vs ↔ i < N ∧ vs.getD i false = true))) := by
  constructor
  · intro h
    simp [frame_resolve, frame_post_init_check, h]
  · intro h
    refine ⟨by simp [frame_resolve, frame_post_init_check, rowindex_from_column, h], ?_, ?_, ?_⟩
    · unfold bools_to_rowindex
      exact List.Pairwise.map _ (fun a b hab => by exact_mod_cast hab)
        (List.Pairwise.filter _ (List.pairwise_lt_range vs.length))
    · unfold bools_to_rowindex
      intro x hx
      rcases List.mem_map.mp hx with ⟨i, _, rfl⟩
      omega
    · intro i
      subst h
      unfold bools_to_rowindex
      constructor
      · intro hmem
        rcases List.mem_map.mp hmem with ⟨j, hj, hji⟩
        have hj2 := List.mem_filter.mp hj
        have : j = i := by exact_mod_cast hji
        subst this
        exact ⟨List.mem_range.mp hj2.1, hj2.2⟩
      · rintro ⟨hi, htrue⟩
        exact List.mem_map.mpr ⟨i, List.mem_filter.mpr ⟨List.mem_range.mpr hi, htrue⟩, rfl⟩

/-- Witness for C4 at concrete inputs: the mask `[true, false, true]`
against 3 rows yields positions `[0, 2]`, and the same mask against 4 rows
raises the row-count mismatch error. -/
theorem claim_C4_bool_frame_witness :
    frame_resolve (.bools [true, false, true]) 3 = .ok (.array [0, 2]) ∧
    frame_resolve (.bools [true, false, true]) 4 = .error (.boolColumnLength 3 4) := by
  constructor
  · have h := ((claim_C4_bool_frame [true, false, true] 3).2 rfl).1
    simpa [bools_to_rowindex] using h
  · exact (claim_C4_bool_frame [true, false, true] 4).1 (by decide)

/-- C5: resolving a single-column (non-empty) integer frame selector against
a frame of row count `N` raises exactly when the column contains some value
below −1 or at least `N`; otherwise it yields the ARRAY RowIndex holding the
column's values verbatim (order and duplicates preserved; the entry −1 is
the null-row sentinel of the ARRAY shape). -/
theorem claim_C5_int_frame (vs : List Int) (N : Nat) (hne : vs ≠ []) :
    ((isErr (frame_resolve (.ints vs) N) = true) ↔ ∃ v ∈ vs, v < -1 ∨ (N : Int) ≤ v) ∧
    ((∀ v ∈ vs, -1 ≤ v ∧ v < (N : Int)) →
        frame_resolve (.ints vs) N = .ok (.array vs)) := by
  have hforward : ∀ v ∈ vs, (v < -1 ∨ (N : Int) ≤ v) →
      isErr (frame_resolve (.ints vs) N) = true := by
    intro v hv hbad
    unfold frame_resolve frame_post_init_check
    rcases hbad with hlt | hge
    · have : min_int64 vs < -1 := lt_of_le_of_lt (min_int64_le hv) hlt
      simp [this, isErr]
    · have : (N : Int) ≤ max_int64 vs := le_trans hge (le_max_int64 hv)
      by_cases hmin : min_int64 vs < -1
      · simp [hmin, isErr]
      · simp [hmin, this, isErr]
  constructor
  · constructor
    · intro herr
      by_contra hno
      push_neg at hno
      have hok : ∀ v ∈ vs, -1 ≤ v ∧ v < (N : Int) := by
        intro v hv
        have := hno v hv
        push_neg at this
        exact this
      have h1 : ¬ min_int64 vs < -1 := by
        have := hok (min_int64 vs) (min_int64_mem hne)
        omega
      have h2 : ¬ (N : Int) ≤ max_int64 vs := by
        have := hok (max_int64 vs) (max_int64_mem hne)
        omega
      unfold frame_resolve frame_post_init_check at herr
      simp [h1, h2, isErr] at herr
    · rintro ⟨v, hv, hbad⟩
      exact hforward v hv hbad
  · intro hok
    have h1 : ¬ min_int64 vs < -1 := by
      have := hok (min_int64 vs) (min_int64_mem hne)
      omega
    have h2 : ¬ (N : Int) ≤ max_int64 vs := by
      have := hok (max_int64 vs) (max_int64_mem hne)
      omega
    unfold frame_resolve frame_post_init_check
    simp [h1, h2, rowindex_from_column]

/-- Witness for C5 at concrete inputs: the column `[0, -1, 2, 0]` against 3
rows resolves to the verbatim ARRAY `[0, -1, 2, 0]`, while the column `[0, 5]`
against 3 rows raises. -/
theorem claim_C5_int_frame_witness :
    frame_resolve (.ints [0, -1, 2, 0]) 3 = .ok (.array [0, -1, 2, 0]) ∧
    isErr (frame_resolve (.ints [0, 5]) 3) = true := by
  constructor
  · exact (claim_C5_int_frame [0, -1, 2, 0] 3 (by decide)).2 (by decide)
  · exact ((claim_C5_int_frame [0, 5] 3 (by decide)).1).mpr ⟨5, by decide, by decide⟩

/-! ### multislice_in (arbitrary mixed list of ints, slices and ranges) -/

/-- Tag of a stored multislice item (`multislice_in::item_kind`). -/
inductive IKind where
  | int
  | slice
  | range
deriving DecidableEq

/-- A stored multislice item (`multislice_in::item`): `int64_t start, stop,
step` plus the kind tag. -/
structure MItem where
  start : Int
  stop : Int
  step : Int
  kind : IKind
deriving DecidableEq

/-- An element of the python list fed to the multislice constructor: an int,
a range (python ranges always have nonzero step), a slice whose three fields
may each be absent (the source's `py::oslice::NA` sentinel), or anything
else (which the constructor rejects). -/
inductive MElem where
  | int (value : Int)
  | rng (start stop step : Int)
  | slc (start stop step : Option Int)
  | bad
deriving DecidableEq

/-- Modelled from the spec: `py::oslice::MAX`, the "direction-appropriate
boundary sentinel" substituted for a missing slice bound; the source stores
bounds in `int64_t`, so the sentinel is the largest `int64_t`. -/
def oslice_MAX : Int := 2 ^ 63 - 1

/-- Element count of a range as computed by the multislice constructor:
ceiling division of the extent by the step, by the sign of the step, in
C++ (truncated) integer division. -/
def rangeCount (start stop step : Int) : Int :=
  if 0 < step then Int.tdiv (stop - start + step - 1) step
  else Int.tdiv (start - stop - step - 1) (-step)

/-- Accumulator of the multislice constructor: the stored items, in order,
and the running `max_nrows` estimate (the constructor's final value of
which becomes `min_nrows`). -/
structure BuildState where
  items : List MItem
  max_nrows : Nat
deriving DecidableEq

/-- One loop iteration of the multislice constructor
(`multislice_in::multislice_in`), processing a single list element. -/
def buildStep (st : BuildState) (e : MElem) : Except Err BuildState :=
  match e with
  | .int value =>
      let n : Nat := if 0 ≤ value then (value + 1).toNat else (-value).toNat
      .ok ⟨st.items ++ [⟨value, 0, 0, .int⟩], max st.max_nrows n⟩
  | .rng start stop step =>
      let count := rangeCount start stop step
      if count ≤ 0 then .ok st
      else
        let last := start + (count - 1) * step
        if decide (0 ≤ start) ≠ decide (0 ≤ last) then
          .error (.wrapAroundRange start stop step)
        else
          let stop2 := start + count * step
          let n1 : Nat := if 0 < start then (start + 1).toNat else (-start).toNat
          let n2 : Nat := if 0 < last then (last + 1).toNat else (-last).toNat
          .ok ⟨st.items ++ [⟨start, stop2, step, .range⟩], max (max st.max_nrows n1) n2⟩
  | .slc start? stop? step? =>
      if step? = some 0 then
        match start?, stop? with
        | some start, some stop =>
            if stop < 0 then .error .zeroStepSlice
            else .ok ⟨st.items ++ [⟨start, stop, 0, .slice⟩], st.max_nrows⟩
        | _, _ => .error .zeroStepSlice
      else
        let step := step?.getD 1
        let start := start?.getD (if 0 < step then 0 else oslice_MAX)
        let stop := stop?.getD (if 0 < step then oslice_MAX else -oslice_MAX)
        .ok ⟨st.items ++ [⟨start, stop, step, .slice⟩], st.max_nrows⟩
  | .bad => .error .invalidItem

/-- The multislice constructor: fold `buildStep` over the selector list,
starting from no items and a zero row-count estimate. -/
def multislice_build (elems : List MElem) : Except Err BuildState :=
  elems.foldlM buildStep ⟨[], 0⟩

/-- multislice_in::post_init_check: the frame must have at least `min_nrows`
rows. -/
def multislice_post_init (nrows min_nrows : Nat) : Except Err Unit :=
  if nrows < min_nrows then .error (.needRows min_nrows) else .ok ()

/-- C++ conversion of an `int64_t` value to `size_t` (wraps modulo 2^64). -/
def toSize (i : Int) : Nat := (i % (2 ^ 64 : Int)).toNat

/-- C++ conversion of an `int64_t` value to `int32_t` (wraps modulo 2^32). -/
def toInt32 (i : Int) : Int := (i + 2 ^ 31) % 2 ^ 32 - 2 ^ 31

/-- First loop of `multislice_in::execute`: translate negative offsets by
`inrows` (clamping slices), mutating the item in place, and return the
item's contribution to `total_count` (a `size_t`). The `continue` for a
slice whose start exceeds `inrows` skips the stop adjustment and the count
update but leaves the item in the vector. -/
def execAdjustItem (inrows : Int) (it : MItem) : MItem × Nat :=
  match it.kind with
  | .int =>
      let start := if it.start < 0 then it.start + inrows else it.start
      (⟨start, it.stop, it.step, .int⟩, 1)
  | .range =>
      let start := if it.start < 0 then it.start + inrows else it.start
      let stop := if it.stop < 0 then it.stop + inrows else it.stop
      (⟨start, stop, it.step, .range⟩, toSize (Int.tdiv (stop - start) it.step))
  | .slice =>
      let start1 := if it.start < 0 then it.start + inrows else it.start
      let start := if start1 < 0 then 0 else start1
      if inrows < start then (⟨start, it.stop, it.step, .slice⟩, 0)
      else
        let stop1 := if it.stop < 0 then it.stop + inrows else it.stop
        let stop2 := if stop1 < 0 then -1 else stop1
        let stop := if inrows < stop2 then inrows else stop2
        let icount : Int :=
          if 0 < it.step ∧ start < stop then Int.tdiv (stop - start + it.step - 1) it.step
          else if it.step < 0 ∧ stop < start then Int.tdiv (start - stop - it.step - 1) (-it.step)
          else 0
        (⟨start, stop, it.step, .slice⟩, toSize icount)

/-- The whole first execute loop: the adjusted items and the accumulated
`total_count` (a `size_t`, so the sum wraps modulo 2^64). -/
def multislice_exec_pass (inrows : Int) (items : List MItem) : List MItem × Nat :=
  items.foldl
    (fun acc it =>
      let r := execAdjustItem inrows it
      (acc.1 ++ [r.1], (acc.2 + r.2) % 2 ^ 64))
    ([], 0)

/-- Number of iterations of `for (k = start; k < stop; k += step)` for a
positive step. -/
def stepCountPos (start stop step : Int) : Nat :=
  if start < stop then ((stop - start - 1).toNat / step.toNat) + 1 else 0

/-- Number of iterations of `for (k = start; k > stop; k += step)` for a
negative step. -/
def stepCountNeg (start stop step : Int) : Nat :=
  if stop < start then ((start - stop - 1).toNat / (-step).toNat) + 1 else 0

/-- Indices written by the second execute loop for one (already adjusted)
item: an INT item writes its single index; a positive-step item steps
forward from `start` while below `stop`; a negative-step item steps
backward while above `stop`; a zero-step slice repeats `start`, `stop`
times. Every write casts to `int32_t`. -/
def emitItem (it : MItem) : List Int :=
  if it.kind = .int then [toInt32 it.start]
  else if 0 < it.step then
    ((List.range (stepCountPos it.start it.stop it.step)).map
      (fun i : Nat => toInt32 (it.start + i * it.step)))
  else if it.step < 0 then
    ((List.range (stepCountNeg it.start it.stop it.step)).map
      (fun i : Nat => toInt32 (it.start + i * it.step)))
  else List.replicate it.stop.toNat (toInt32 it.start)

/-- multislice_in::execute: run the counting/adjusting loop, then the fill
loop over the adjusted items; result is the allocation size `total_count`
and the flat list of indices actually written. -/
def multislice_execute (nrows : Nat) (items : List MItem) :
    Nat × List Int :=
  let p := multislice_exec_pass (nrows : Int) items
  (p.2, (p.1.map emitItem).flatten)

/-- End-to-end resolution of a multislice selector: construction,
`post_init_check`, then `execute`, the written indices becoming an ARRAY
RowIndex. -/
def multislice_resolve (elems : List MElem) (nrows : Nat) : Except Err RowIndex :=
  match multislice_build elems with
  | .error e => .error e
  | .ok st =>
      match multislice_post_init nrows st.max_nrows with
      | .error e => .error e
      | .ok _ => .ok (.array (multislice_execute nrows st.items).2)

/-! ### Claim theorems for the multislice selector -/

/-- C7: resolving the multislice selector `[5, slice(0,3), range(2,0,-1)]`
(a slice literal leaves its step absent) against a frame with 10 rows
yields the flat index sequence `[5, 0, 1, 2, 2, 1]` as an ARRAY RowIndex. -/
theorem claim_C7_multislice_example :
    multislice_resolve
        [MElem.int 5, MElem.slc (some 0) (some 3) none, MElem.rng 2 0 (-1)] 10
      = .ok (.array [5, 0, 1, 2, 2, 1]) := by decide

/-- C3 fails on the code: the RANGE item `range(-3, 0)` (python elements
−3, −2, −1, selecting the last three rows) is accepted at construction
with element count 3 (first resolved element −3 and last −1 are both
negative, so the wrap-around check passes) and its normalized stop is 0;
`post_init_check` passes for a frame with 10 rows (minimum estimate 3).
The claim then expects execute to emit the 3 indices 7, 8, 9. Instead,
execute adds `nrows` to the negative start (giving 7) but leaves the
non-negative normalized stop 0 untranslated, computes
`icount = (0 − 7) / 1 = −7`, adds its `size_t` cast 2^64 − 7 to the
allocation size, and the fill loop writes 0 indices — so the emitted count
is neither the construction count 3 nor the allocation size. -/
theorem claim_C3_range_item_miscount :
    multislice_build [MElem.rng (-3) 0 1] = .ok ⟨[⟨-3, 0, 1, .range⟩], 3⟩ ∧
    rangeCount (-3) 0 1 = 3 ∧
    multislice_post_init 10 3 = .ok () ∧
    multislice_execute 10 [⟨-3, 0, 1, .range⟩] = (2 ^ 64 - 7, []) := by decide

/-- A RANGE element whose computed count is not positive is skipped by the
multislice constructor: the accumulated state is returned unchanged and no
error is raised. -/
theorem buildStep_skips_empty_range (st : BuildState) (start stop step : Int)
    (h : rangeCount start stop step ≤ 0) :
    buildStep st (.rng start stop step) = .ok st := by
  unfold buildStep
  simp [h]

/-- C8: a RANGE item whose computed element count is ≤ 0 (an empty range
such as `range(5,5)` or `range(5,0)` with positive step) contributes
nothing to multislice construction — the build of any selector list
containing it equals the build of the list without it, so it contributes
zero elements to the resolved index and never causes resolution to raise
solely because it is empty. -/
theorem claim_C8_empty_range (start stop step : Int)
    (h : rangeCount start stop step ≤ 0) (pre post : List MElem) :
    multislice_build (pre ++ MElem.rng start stop step :: post)
      = multislice_build (pre ++ post) := by
  unfold multislice_build
  rw [List.foldlM_append, List.foldlM_append]
  cases hpre : List.foldlM buildStep (⟨[], 0⟩ : BuildState) pre with
  | error e => rfl
  | ok st =>
      show (List.foldlM buildStep st (MElem.rng start stop step :: post) : Except Err BuildState)
        = List.foldlM buildStep st post
      rw [List.foldlM_cons, buildStep_skips_empty_range st start stop step h]
      rfl

/-- Witness for C8 at a concrete input: inserting `range(5, 0)` (positive
step, empty) after the item `0` changes nothing about construction. -/
theorem claim_C8_empty_range_witness :
    multislice_build [MElem.int 0, MElem.rng 5 0 1] = multislice_build [MElem.int 0] :=
  claim_C8_empty_range 5 0 1 (by decide) [MElem.int 0] []

/-- C9 counterexample: the range `range(5, 7)` has first resolved element 5
and last resolved element 6 — the same (non-negative) sign — and is indeed
accepted by multislice construction; yet resolving the selector
`[range(5, 7)]` against a frame with 3 rows raises (its minimum row-count
estimate is 7), refuting the claim that same-sign first/last elements make
resolution succeed for every frame row count. -/
theorem claim_C9_counterexample :
    buildStep ⟨[], 0⟩ (MElem.rng 5 7 1) = .ok ⟨[⟨5, 7, 1, .range⟩], 7⟩ ∧
    multislice_resolve [MElem.rng 5 7 1] 3 = .error (.needRows 7) := by decide

/-- C9 (amended): in a multislice, a non-empty RANGE item raises the
wrap-around range error at construction exactly when its first and last
resolved elements have opposite sign; with equal signs the item is accepted
at construction (resolution may still raise later for other reasons, such
as a frame row count below the item's minimum estimate). -/
theorem claim_C9_amended (st : BuildState) (start stop step : Int)
    (h : 0 < rangeCount start stop step) :
    (¬((0 ≤ start) ↔ (0 ≤ start + (rangeCount start stop step - 1) * step)) →
        buildStep st (.rng start stop step) = .error (.wrapAroundRange start stop step) ∧
        Err.kind (.wrapAroundRange start stop step) = .valueError) ∧
    (((0 ≤ start) ↔ (0 ≤ start + (rangeCount start stop step - 1) * step)) →
        ∃ st2, buildStep st (.rng start stop step) = .ok st2) := by
  constructor
  · intro hsign
    have hd : (decide (0 ≤ start)
        ≠ decide (0 ≤ start + (rangeCount start stop step - 1) * step)) := by
      simp only [ne_eq, decide_eq_decide]
      exact hsign
    unfold buildStep
    simp only [not_le.mpr h, if_false]
    rw [if_pos hd]
    exact ⟨rfl, rfl⟩
  · intro hsign
    have hd : (decide (0 ≤ start)
        = decide (0 ≤ start + (rangeCount start stop step - 1) * step)) := by
      simp only [decide_eq_decide]
      exact hsign
    unfold buildStep
    simp only [not_le.mpr h, if_false]
    rw [if_neg (by simp [hd])]
    exact ⟨_, rfl⟩

/-- Witness for C9 (amended) at concrete inputs: `range(-2, 2)` (first −2,
last 1, opposite signs) raises the wrap-around error; `range(2, 0, -1)`
(first 2, last 1, same sign) is accepted. -/
theorem claim_C9_amended_witness :
    buildStep ⟨[], 0⟩ (MElem.rng (-2) 2 1) = .error (.wrapAroundRange (-2) 2 1) ∧
    ∃ st2, buildStep (⟨[], 0⟩ : BuildState) (MElem.rng 2 0 (-1)) = .ok st2 := by
  constructor
  · exact ((claim_C9_amended ⟨[], 0⟩ (-2) 2 1 (by decide)).1 (by decide)).1
  · exact (claim_C9_amended ⟨[], 0⟩ 2 0 (-1) (by decide)).2 (by decide)

/-! ### Storage types, frame_in construction, the numpy-array path and the
selector factory -/

/-- Storage types (`SType`) relevant to the selector engine. -/
inductive SType where
  | bool8
  | int8
  | int16
  | int32
  | int64
  | float32
  | float64
  | str32
  | str64
  | obj
deriving DecidableEq

/-- Logical types (`LType`). -/
inductive LType where
  | bool
  | int
  | real
  | str
  | obj
deriving DecidableEq

/-- The `info(st).ltype()` classification of storage types. -/
def info_ltype : SType → LType
  | .bool8 => .bool
  | .int8 | .int16 | .int32 | .int64 => .int
  | .float32 | .float64 => .real
  | .str32 | .str64 => .str
  | .obj => .obj

/-- Selector nodes as produced by the factory (`i_node` subclasses), holding
exactly the state their constructors store. -/
inductive INode where
  | allrows
  | onerow (irow : Int)
  | slice (start stop step : Int) (is_slice : Bool)
  | expr
  | frame (ncols : Nat) (st : SType)
  | multislice (items : List MItem) (min_nrows : Nat)
deriving DecidableEq

/-- frame_in::frame_in: the borrowed frame must have exactly one column,
whose storage type must be boolean or of integer logical type. -/
def frame_in_ctor (ncols : Nat) (st : SType) : Except Err INode :=
  if ncols ≠ 1 then .error (.frameNcols ncols)
  else if st = .bool8 ∨ info_ltype st = .int then .ok (.frame ncols st)
  else .error .frameStype

/-- The reshape at the top of `_from_nparray`: a two-dimensional shape with
one axis of length 1 is squeezed to one dimension. -/
def squeezeShape (shape : List Nat) : List Nat :=
  match shape with
  | [d0, d1] => if d0 = 1 ∨ d1 = 1 then [d0 * d1] else [d0, d1]
  | s => s

/-- The local `bool is_bool = dtype_str.compare(0, 4, "bool");` of
`_from_nparray`: `std::string::compare` returns 0 exactly on equality, and
the nonzero-is-true conversion makes this boolean the NEGATION of "the
dtype starts with bool". -/
def np_is_bool (dtype : List Char) : Bool := !(decide (dtype.take 4 = "bool".toList))

/-- The local `bool is_int = dtype_str.compare(0, 3, "int");` of
`_from_nparray`; see `np_is_bool`. -/
def np_is_int (dtype : List Char) : Bool := !(decide (dtype.take 3 = "int".toList))

/-- Modelled from the spec: the numeric-array adapter "exposes shape,
element dtype name, and a reshape/conversion operation into a single-column
table". The adapter's dtype-name → column-type mapping is not under the
given sources; we model it by the dtype name's kind: bool dtypes give the
boolean column type, integer dtypes (signed or unsigned) an integer column
type, floating dtypes a float column type, anything else the object column
type. Only the bool/integer side of this mapping matters to the claims. -/
def dtypeToSType (dtype : List Char) : SType :=
  if dtype.take 4 = "bool".toList then .bool8
  else if dtype.take 3 = "int".toList then .int64
  else if dtype.take 4 = "uint".toList then .int64
  else if dtype.take 5 = "float".toList then .float64
  else .obj

/-- `_from_nparray`: squeeze the shape, reject non-1-D arrays, run the
(inverted, see `np_is_bool`) dtype check, convert the array into a
single-column frame of the dtype's column type and construct a `frame_in`
node from it. -/
def _from_nparray (shape : List Nat) (dtype : List Char) : Except Err INode :=
  if (squeezeShape shape).length ≠ 1 then .error (.arrayShape (squeezeShape shape))
  else if !(np_is_bool dtype || np_is_int dtype) then .error (.arrayDtype dtype)
  else frame_in_ctor 1 (dtypeToSType dtype)

/-- Shapes a selector value can take, one per runtime test of `_make`, in
the source's (significant, fixed) dispatch order; `otherSel` is a value
matching none of the recognized shapes. Each shape carries the data the
corresponding node constructor reads from it. -/
inductive Sel where
  | trivialSlice
  | numericSlice (start stop step : Int)
  | nonNumericSlice
  | exprSel
  | frameSel (ncols : Nat) (st : SType)
  | intSel (v : Int)
  | noneSel
  | ellipsisSel
  | npArraySel (shape : List Nat) (dtype : List Char)
  | rangeSel (start stop step : Int)
  | iterSel (elems : List MElem)
  | boolSel (b : Bool)
  | otherSel
deriving DecidableEq

/-- The selector factory `_make`: construct the node matching the selector
shape, raise the shape's construction errors — and fall through to a null
node (`return nullptr; // for now` in the source) for an unrecognized
selector. -/
def i_node_make : Sel → Except Err (Option INode)
  | .trivialSlice => .ok (some .allrows)
  | .numericSlice start stop step => .ok (some (.slice start stop step true))
  | .nonNumericSlice => .error .sliceNotNumeric
  | .exprSel => .ok (some .expr)
  | .frameSel ncols st => (frame_in_ctor ncols st).map some
  | .intSel v => .ok (some (.onerow v))
  | .noneSel => .ok (some .allrows)
  | .ellipsisSel => .ok (some .allrows)
  | .npArraySel shape dtype => (_from_nparray shape dtype).map some
  | .rangeSel start stop step => .ok (some (.slice start stop step false))
  | .iterSel elems =>
      (multislice_build elems).map (fun st => some (.multislice st.items st.max_nrows))
  | .boolSel _ => .error .boolSelector
  | .otherSel => .ok none

/-! ### Claim theorems for the numpy-array path and the factory -/

/-- The dtype check of `_from_nparray` can never fire: a dtype name cannot
start with both "bool" and "int", so at least one of the two inverted
compare results is true. -/
theorem np_dtype_check_dead (dtype : List Char) :
    (np_is_bool dtype || np_is_int dtype) = true := by
  by_cases hb : dtype.take 4 = "bool".toList
  · have h3 : dtype.take 3 = "boo".toList := by
      have h4 := congrArg (List.take 3) hb
      simpa [List.take_take] using h4
    unfold np_is_bool np_is_int
    rw [h3]
    simp
  · unfold np_is_bool
    rw [decide_eq_false hb]
    simp

/-- C1: for every numpy-array selector that is one-dimensional after
squeezing, resolution accepts it (as a single-column frame node) exactly
when its element dtype maps to a boolean or integer column type, and raises
a type error for every other element dtype. In the source the rejection
does not come from `_from_nparray`'s own dtype check — which can never fire
(see `np_dtype_check_dead`) — but from the `frame_in` constructor applied
to the converted single-column frame. -/
theorem claim_C1_nparray (shape : List Nat) (dtype : List Char)
    (h : (squeezeShape shape).length = 1) :
    ((dtypeToSType dtype = .bool8 ∨ info_ltype (dtypeToSType dtype) = .int) →
        _from_nparray shape dtype = .ok (.frame 1 (dtypeToSType dtype))) ∧
    (¬(dtypeToSType dtype = .bool8 ∨ info_ltype (dtypeToSType dtype) = .int) →
        _from_nparray shape dtype = .error .frameStype ∧
        Err.kind .frameStype = .typeError) := by
  have hstep : _from_nparray shape dtype = frame_in_ctor 1 (dtypeToSType dtype) := by
    unfold _from_nparray
    rw [np_dtype_check_dead dtype, h]
    simp
  constructor
  · intro hok
    rw [hstep]
    unfold frame_in_ctor
    rw [if_neg (by decide), if_pos hok]
  · intro hbad
    rw [hstep]
    unfold frame_in_ctor
    rw [if_neg (by decide), if_neg hbad]
    exact ⟨rfl, rfl⟩

/-- Witness for C1 at concrete inputs: a squeezable 1×4 float64 array is
rejected with a type error, and a one-dimensional int32 array is accepted
as a single-column integer frame node. -/
theorem claim_C1_nparray_witness :
    _from_nparray [1, 4] ("float64".toList) = .error .frameStype ∧
    _from_nparray [5] ("int32".toList) = .ok (.frame 1 .int64) := by
  constructor
  · exact ((claim_C1_nparray [1, 4] ("float64".toList) (by decide)).2 (by decide)).1
  · have h2 := (claim_C1_nparray [5] ("int32".toList) (by decide)).1 (by decide)
    rw [show dtypeToSType ("int32".toList) = SType.int64 from by decide] at h2
    exact h2

/-- C2 counterexample: a selector value matching none of the recognized
shapes does NOT make the factory raise an unsupported-selector error — the
source's `_make` falls through to `return nullptr; // for now`, so the
factory yields a null (absent) node. -/
theorem claim_C2_counterexample :
    isErr (i_node_make Sel.otherSel) = false ∧ i_node_make Sel.otherSel = .ok none :=
  ⟨rfl, rfl⟩

/-- C2 (amended): the factory returns the null node for a selector matching
none of the recognized shapes, and only for it — every recognized shape
either produces a node or raises one of the construction errors. -/
theorem claim_C2_amended (s : Sel) :
    i_node_make s = .ok none ↔ s = .otherSel := by
  cases s with
  | frameSel ncols st =>
      cases h : frame_in_ctor ncols st <;> simp [i_node_make, h, Except.map]
  | npArraySel shape dtype =>
      cases h : _from_nparray shape dtype <;> simp [i_node_make, h, Except.map]
  | iterSel elems =>
      cases h : multislice_build elems <;> simp [i_node_make, h, Except.map]
  | _ => simp [i_node_make]

/-- Witness for C2 (amended), instantiating it at the unmatched shape. -/
theorem claim_C2_amended_witness : i_node_make Sel.otherSel = .ok none :=
  (claim_C2_amended Sel.otherSel).mpr rfl

/-! ### ColumnImpl::cast_replace (C10) -/

/-- A column element value (one per primitive representation family we need
to speak about casts generically). -/
inductive CVal where
  | b (x : Bool)
  | i (x : Int)
  | s (x : List Char)
deriving DecidableEq

/-- A column as logical content: its storage type and its row values, with
`none` for a null row; the row count is the length of `values`. -/
structure ColumnM where
  type : SType
  values : List (Option CVal)
deriving DecidableEq

/-- The two column slots `cast_replace` touches: the receiver (`this`) and
the out-parameter `thiscol`. -/
structure CastState where
  receiver : ColumnM
  target : ColumnM
deriving DecidableEq

/-- Modelled from the spec: the implementation of
`ColumnImpl::cast_replace(new_type, thiscol)` is not under the given
sources, which hold only its declaration and contract ("Cast the column
into new type, storing the result into `thiscol`. ... This method is
const, and should not modify the column's data. If it is desired to change
the column's type in place, the method should make a clone first."). We
model it as a state transform, parametric in the per-element conversion
`conv` (the spec does not fix the conversion itself): the target slot is
replaced by the converted column, built from the receiver's values, and
the receiver slot is carried over. -/
def cast_replace (conv : SType → Option CVal → Option CVal) (new_type : SType)
    (s : CastState) : CastState :=
  ⟨s.receiver, ⟨new_type, s.receiver.values.map (conv new_type)⟩⟩

/-- C10: for every column, target and target type (and any element
conversion), `cast_replace` writes the converted result into the target —
which gets the new type and one converted value per receiver row — and
leaves the receiver's own type, row count and stored values unchanged; an
in-place-looking cast therefore requires the caller to clone first. -/
theorem claim_C10_cast_replace (conv : SType → Option CVal → Option CVal)
    (new_type : SType) (s : CastState) :
    (cast_replace conv new_type s).receiver.type = s.receiver.type ∧
    (cast_replace conv new_type s).receiver.values = s.receiver.values ∧
    (cast_replace conv new_type s).receiver.values.length = s.receiver.values.length ∧
    (cast_replace conv new_type s).target.type = new_type ∧
    (cast_replace conv new_type s).target.values = s.receiver.values.map (conv new_type) ∧
    (cast_replace conv new_type s).target.values.length = s.receiver.values.length := by
  refine ⟨rfl, rfl, rfl, rfl, rfl, ?_⟩
  simp [cast_replace]

end Dt
